import Mathlib

/-!
Verification development for the `seo_app.py` SEO-audit pipeline.

The Python source is shallowly embedded: each pure fragment of the script
becomes an executable Lean definition, external collaborators (the HTTP
fetch + HTML parse of BeautifulSoup, the Vertex-AI call) are passed in as
explicit data or functions, and Python exceptions are modelled with
`Option`/`Except`.  Machine integers of the score arithmetic are modelled
as `Int` (Python ints are unbounded); the floating-point echo score is
modelled with exact rational arithmetic.
-/

set_option maxHeartbeats 1000000

namespace SeoApp

/-- Values of parsed JSON documents (the result of a successful
`json.loads`).  Numbers are irrelevant to every schema operation of the
script, so they are carried as a single opaque integer payload. -/
inductive JVal where
  | jnull : JVal
  | jbool : Bool → JVal
  | jnum : Int → JVal
  | jstr : String → JVal
  | jarr : List JVal → JVal
  | jobj : List (String × JVal) → JVal

mutual

/-- Boolean equality on JSON values (structural). -/
def JVal.beq : JVal → JVal → Bool
  | .jnull, .jnull => true
  | .jbool a, .jbool b => a == b
  | .jnum a, .jnum b => a == b
  | .jstr a, .jstr b => a == b
  | .jarr a, .jarr b => JVal.beqArr a b
  | .jobj a, .jobj b => JVal.beqObj a b
  | _, _ => false

/-- Boolean equality on JSON arrays. -/
def JVal.beqArr : List JVal → List JVal → Bool
  | [], [] => true
  | a :: as, b :: bs => JVal.beq a b && JVal.beqArr as bs
  | _, _ => false

/-- Boolean equality on JSON object field lists. -/
def JVal.beqObj : List (String × JVal) → List (String × JVal) → Bool
  | [], [] => true
  | (k, v) :: as, (k2, v2) :: bs => k == k2 && JVal.beq v v2 && JVal.beqObj as bs
  | _, _ => false

end

mutual

theorem JVal.eq_of_beq : ∀ {a b : JVal}, JVal.beq a b = true → a = b
  | .jnull, .jnull, _ => rfl
  | .jbool _, .jbool _, h => by
      simp only [JVal.beq, beq_iff_eq] at h; rw [h]
  | .jnum _, .jnum _, h => by
      simp only [JVal.beq, beq_iff_eq] at h; rw [h]
  | .jstr _, .jstr _, h => by
      simp only [JVal.beq, beq_iff_eq] at h; rw [h]
  | .jarr _, .jarr _, h => by
      simp only [JVal.beq] at h; rw [JVal.eqArr_of_beq h]
  | .jobj _, .jobj _, h => by
      simp only [JVal.beq] at h; rw [JVal.eqObj_of_beq h]

theorem JVal.eqArr_of_beq : ∀ {a b : List JVal}, JVal.beqArr a b = true → a = b
  | [], [], _ => rfl
  | x :: xs, y :: ys, h => by
      simp only [JVal.beqArr, Bool.and_eq_true] at h
      rw [JVal.eq_of_beq h.1, JVal.eqArr_of_beq h.2]

theorem JVal.eqObj_of_beq :
    ∀ {a b : List (String × JVal)}, JVal.beqObj a b = true → a = b
  | [], [], _ => rfl
  | (k, v) :: xs, (k2, v2) :: ys, h => by
      simp only [JVal.beqObj, Bool.and_eq_true, beq_iff_eq] at h
      rw [h.1.1, JVal.eq_of_beq h.1.2, JVal.eqObj_of_beq h.2]

end

mutual

theorem JVal.beq_refl : ∀ (a : JVal), JVal.beq a a = true
  | .jnull => rfl
  | .jbool _ => by simp [JVal.beq]
  | .jnum _ => by simp [JVal.beq]
  | .jstr _ => by simp [JVal.beq]
  | .jarr xs => by simp only [JVal.beq]; exact JVal.beqArr_refl xs
  | .jobj xs => by simp only [JVal.beq]; exact JVal.beqObj_refl xs

theorem JVal.beqArr_refl : ∀ (a : List JVal), JVal.beqArr a a = true
  | [] => rfl
  | x :: xs => by
      simp only [JVal.beqArr, Bool.and_eq_true]
      exact ⟨JVal.beq_refl x, JVal.beqArr_refl xs⟩

theorem JVal.beqObj_refl : ∀ (a : List (String × JVal)), JVal.beqObj a a = true
  | [] => rfl
  | (k, v) :: xs => by
      simp only [JVal.beqObj, Bool.and_eq_true, beq_iff_eq]
      exact ⟨⟨trivial, JVal.beq_refl v⟩, JVal.beqObj_refl xs⟩

end

instance : DecidableEq JVal := fun a b =>
  if h : JVal.beq a b = true then .isTrue (JVal.eq_of_beq h)
  else .isFalse (fun he => h (he ▸ JVal.beq_refl a))

/-- Python's `needle in haystack` substring test on strings, at the
character-list level. -/
def pySubstr (needle hay : String) : Bool :=
  go needle.toList hay.toList
where
  go (n : List Char) : List Char → Bool
    | [] => n.isEmpty
    | c :: rest => n.isPrefixOf (c :: rest) || go n rest

/-- Python `str.strip()` (no argument): drop whitespace from both ends.
Modelled over the character list with Lean's `Char.isWhitespace` class
(space, tab, CR, LF — the whitespace that occurs in CSV headers and
scraped text). -/
def pyStrip (s : String) : String :=
  String.mk (((s.toList.dropWhile Char.isWhitespace).reverse.dropWhile
    Char.isWhitespace).reverse)

/-- Python `str.lower()` on the ASCII range (header names and the URL
candidates are ASCII). -/
def pyLower (s : String) : String :=
  String.mk (s.toList.map Char.toLower)

/-- Python `str.startswith(pre)`. -/
def pyStartsWith (s pre : String) : Bool :=
  pre.toList.isPrefixOf s.toList

/-- The dictionary returned by `analyze_with_gemini` / passed to
`calculate_score` as `ai_result`.  Each field is optional because the
code reads it with `dict.get`; `none` models an absent key (for example
the empty dict `{}` used when AI analysis is disabled). -/
structure AiResult where
  rating : Option String
  writing_quality : Option String
  suggested_desc : Option String
  schema_prescription : Option String
deriving DecidableEq

/-- The empty dict `ai_feedback = {}` used when "Enable AI Analysis" is
off: every `get` misses. -/
def emptyAi : AiResult := ⟨none, none, none, none⟩

/-- The `except` branch of `analyze_with_gemini`: any collaborator
failure degrades to `{"rating": "Error", "writing_quality": "Error",
"suggested_desc": "", "schema_prescription": str(e)}`. -/
def error_opinion (e : String) : AiResult :=
  ⟨some "Error", some "Error", some "", some e⟩

/-- The dictionary built by `scrape_seo_data` on success.  `schemaRaw`
carries each syntactically valid JSON-LD block as the raw string the code
stores paired with the value `json.loads` produced for it (the later
re-parse in the audit loop is deterministic, so the value is recorded
once). -/
structure PageData where
  title : String
  h1 : String
  metaDescription : String
  schemaRaw : List (String × JVal)
  jsonValid : Bool
  bodyText : String
  echoScore : ℚ
deriving DecidableEq

/-- Embedding of `calculate_score(data, ai_result)`.  The deduction log is
kept as the `reasons` list the code builds; the code's final
`", ".join(reasons)` is `score_log` below. -/
def calculate_score (data : PageData) (ai_result : AiResult) : Int × List String :=
  let score : Int := 100
  let reasons : List String := []
  -- Technical
  let score := if data.jsonValid = false then score - 30 else score
  let reasons :=
    if data.jsonValid = false then reasons ++ ["Broken Schema Syntax (-30)"] else reasons
  let score := if data.title = "MISSING" then score - 20 else score
  let reasons :=
    if data.title = "MISSING" then reasons ++ ["Missing Title (-20)"] else reasons
  let score := if data.h1 = "MISSING" then score - 10 else score
  let reasons :=
    if data.h1 = "MISSING" then reasons ++ ["Missing H1 (-10)"] else reasons
  -- Content
  let score := if 85 < data.echoScore then score - 15 else score
  let reasons :=
    if 85 < data.echoScore then reasons ++ ["⚠️ Auto-Generated Desc (-15)"] else reasons
  let t_len := data.title.length
  let score := if t_len < 10 ∨ 70 < t_len then score - 5 else score
  let reasons :=
    if t_len < 10 ∨ 70 < t_len then reasons ++ ["Bad Title Len (-5)"] else reasons
  -- AI Quality
  let score := if ai_result.rating = some "Low" then score - 20 else score
  let reasons :=
    if ai_result.rating = some "Low" then reasons ++ ["Low Content Relevance (-20)"]
    else reasons
  -- If AI suggests a specific Schema change (it didn't say "Optimal")
  let prescription := ai_result.schema_prescription.getD ""
  let score :=
    if prescription ≠ "" ∧ pySubstr "Optimal" prescription = false ∧
        pySubstr "Error" prescription = false then score - 10
    else score
  let reasons :=
    if prescription ≠ "" ∧ pySubstr "Optimal" prescription = false ∧
        pySubstr "Error" prescription = false then
      reasons ++ ["Missing Specific Schema (-10)"]
    else reasons
  (max 0 score, reasons)

/-- The joined log string the function actually returns
(`", ".join(reasons)`). -/
def score_log (data : PageData) (ai_result : AiResult) : String :=
  String.intercalate ", " (calculate_score data ai_result).2

/-! The seven deduction triggers of `calculate_score`, named so that the
monotonicity statement can speak of "a trigger becoming true". -/

/-- Trigger of "Broken Schema Syntax (-30)". -/
abbrev trigBrokenSchema (d : PageData) : Prop := d.jsonValid = false

/-- Trigger of "Missing Title (-20)". -/
abbrev trigMissingTitle (d : PageData) : Prop := d.title = "MISSING"

/-- Trigger of "Missing H1 (-10)". -/
abbrev trigMissingH1 (d : PageData) : Prop := d.h1 = "MISSING"

/-- Trigger of "⚠️ Auto-Generated Desc (-15)". -/
abbrev trigEchoHigh (d : PageData) : Prop := 85 < d.echoScore

/-- Trigger of "Bad Title Len (-5)". -/
abbrev trigBadTitleLen (d : PageData) : Prop :=
  d.title.length < 10 ∨ 70 < d.title.length

/-- Trigger of "Low Content Relevance (-20)". -/
abbrev trigLowRating (a : AiResult) : Prop := a.rating = some "Low"

/-- Trigger of "Missing Specific Schema (-10)". -/
abbrev trigSchemaRx (a : AiResult) : Prop :=
  a.schema_prescription.getD "" ≠ "" ∧
    pySubstr "Optimal" (a.schema_prescription.getD "") = false ∧
    pySubstr "Error" (a.schema_prescription.getD "") = false

/-- Total deduction applied by `calculate_score`. -/
def penaltyTotal (d : PageData) (a : AiResult) : Int :=
  (if trigBrokenSchema d then 30 else 0) + (if trigMissingTitle d then 20 else 0) +
    (if trigMissingH1 d then 10 else 0) + (if trigEchoHigh d then 15 else 0) +
    (if trigBadTitleLen d then 5 else 0) + (if trigLowRating a then 20 else 0) +
    (if trigSchemaRx a then 10 else 0)

/-! Embedding of `difflib.SequenceMatcher(None, a, b).ratio()`, the only
piece of `difflib` the script uses (`scrape_seo_data`, echo detection).
`SequenceMatcher` with `isjunk=None` has an empty junk set, but autojunk
is on: when `len(b) >= 200`, characters occurring more than
`len(b) // 100 + 1` times in `b` are "popular" and excluded from the
`b2j` index, so no matching block found by the inner DP may start on or
run through them (they can still be absorbed by the extension phases of
`find_longest_match`). -/

/-- Characters dropped from `b2j` by the autojunk heuristic of
`SequenceMatcher.__chain_b`. -/
def autojunkPopular (b : List Char) (c : Char) : Bool :=
  decide (200 ≤ b.length) && decide (b.length / 100 + 1 < b.count c)

/-- Length of the matching run that ends at positions `(i, j)`: the
value `j2len[j]` holds in `find_longest_match`'s DP after processing row
`i`.  The run may only pass through positions at or above `(alo, blo)`
and only through non-popular characters of `b`. -/
def runEnd (a b : List Char) (pop : Char → Bool) (alo blo i j : Nat) : Nat :=
  match a.get? i, b.get? j with
  | some x, some y =>
    if alo ≤ i ∧ blo ≤ j ∧ x = y ∧ pop y = false then
      if h : alo < i ∧ blo < j then runEnd a b pop alo blo (i - 1) (j - 1) + 1
      else 1
    else 0
  | _, _ => 0
termination_by i
decreasing_by omega

/-- Index pairs scanned by the DP of `find_longest_match`, in its
iteration order: `i` ascending over `range(alo, ahi)` and, within a row,
`j` ascending. -/
def pairsLex (alo ahi blo bhi : Nat) : List (Nat × Nat) :=
  (List.range' alo (ahi - alo)).flatMap
    (fun i => (List.range' blo (bhi - blo)).map (fun j => (i, j)))

/-- The best block found by the DP loop of `find_longest_match`, before
the extension phases: the first `(i, j)` in scan order that strictly
improves the current best size wins, exactly like the `if k > bestsize`
update of the source.  The result is `(besti, bestj, bestsize)`. -/
def flmBest (a b : List Char) (pop : Char → Bool) (alo ahi blo bhi : Nat) :
    Nat × Nat × Nat :=
  (pairsLex alo ahi blo bhi).foldl
    (fun best ij =>
      let k := runEnd a b pop alo blo ij.1 ij.2
      if best.2.2 < k then (ij.1 + 1 - k, ij.2 + 1 - k, k) else best)
    (alo, blo, 0)

/-- The leftward extension loop of `find_longest_match`.  With
`isjunk=None` the junk test `isbjunk` is always false, so the block
extends over every pair of equal characters (popular ones included). -/
def extendLeft (a b : List Char) (alo blo i j k : Nat) : Nat × Nat × Nat :=
  if h : alo < i ∧ blo < j ∧ (a.get? (i - 1)).isSome ∧ a.get? (i - 1) = b.get? (j - 1) then
    extendLeft a b alo blo (i - 1) (j - 1) (k + 1)
  else (i, j, k)
termination_by i
decreasing_by omega

/-- The rightward extension loop of `find_longest_match` (returns the
extended size). -/
def extendRight (a b : List Char) (ahi bhi i j k : Nat) : Nat :=
  if h : i + k < ahi ∧ j + k < bhi ∧ (a.get? (i + k)).isSome ∧
      a.get? (i + k) = b.get? (j + k) then
    extendRight a b ahi bhi i j (k + 1)
  else k
termination_by ahi - (i + k)
decreasing_by omega

/-- `SequenceMatcher.find_longest_match(alo, ahi, blo, bhi)`: the DP best
followed by the two non-junk extension loops (the junk extension loops
are no-ops because the junk set is empty when `isjunk=None`). -/
def find_longest_match (a b : List Char) (pop : Char → Bool) (alo ahi blo bhi : Nat) :
    Nat × Nat × Nat :=
  let best := flmBest a b pop alo ahi blo bhi
  let l := extendLeft a b alo blo best.1 best.2.1 best.2.2
  (l.1, l.2.1, extendRight a b ahi bhi l.1 l.2.1 l.2.2)

/-- Total size of all matching blocks on the range
`(alo, ahi, blo, bhi)` — the recursion that
`SequenceMatcher.get_matching_blocks` runs with its explicit queue
(adjacent-block merging does not change the total).  `fuel` bounds the
recursion depth; every caller below passes more fuel than the recursion
can consume, since each recursive call strictly shrinks
`(ahi - alo) + (bhi - blo)`. -/
def matchesTotal (a b : List Char) (pop : Char → Bool) :
    Nat → Nat → Nat → Nat → Nat → Nat
  | 0, _, _, _, _ => 0
  | fuel + 1, alo, ahi, blo, bhi =>
    let m := find_longest_match a b pop alo ahi blo bhi
    if m.2.2 = 0 then 0
    else
      matchesTotal a b pop fuel alo m.1 blo m.2.1 + m.2.2 +
        matchesTotal a b pop fuel (m.1 + m.2.2) ahi (m.2.1 + m.2.2) bhi

/-- `difflib.SequenceMatcher(None, a, b).ratio()`:
`2.0 * M / T` where `M` is the total size of the matching blocks and
`T = len(a) + len(b)`, or `1.0` when `T == 0`
(`difflib._calculate_ratio`), in exact rational arithmetic. -/
def matcherSimilarity (sa sb : String) : ℚ :=
  let a := sa.toList
  let b := sb.toList
  let m := matchesTotal a b (autojunkPopular b) (a.length + b.length + 1) 0 a.length 0 b.length
  if a.length + b.length = 0 then 1
  else 2 * (m : ℚ) / ((a.length : ℚ) + (b.length : ℚ))

/-- The echo-score computation of `scrape_seo_data` (lines 207-210):
`0` unless the meta description is present and the body text non-empty,
otherwise `SequenceMatcher(None, meta_desc, body_text[:len(meta_desc)+50]).ratio() * 100`. -/
def computeEcho (meta_desc body_text : String) : ℚ :=
  if meta_desc ≠ "MISSING" ∧ body_text ≠ "" then
    matcherSimilarity meta_desc (String.mk (body_text.toList.take (meta_desc.length + 50))) * 100
  else 0

/-! Embedding of `scrape_seo_data`.  The HTTP GET and the BeautifulSoup
parse are external collaborators; `HtmlPage` carries exactly the facts
the function reads off the parsed document.  The `try`/`except` wrapper
(network errors, `raise_for_status`) is modelled at the call site: the
orchestrator receives a `String → Except String HtmlPage` and maps an
`Except.error` to the `{"Error": str(e)}` dictionary branch. -/

/-- One `<script type="application/ld+json">` element as the loop of
`scrape_seo_data` sees it.  `noString` is a tag whose `.string` is falsy
(no text child), which the loop skips; otherwise the tag carries its
non-empty text, and `json.loads` on that text either fails (`invalid`)
or yields a value (`valid` — the parse is deterministic, so the value is
carried with the raw text). -/
inductive BlockContent where
  | noString : BlockContent
  | invalid : String → BlockContent
  | valid : String → JVal → BlockContent
deriving DecidableEq

/-- The parsed-document facts `scrape_seo_data` reads via BeautifulSoup:
text of the first `<title>` and `<h1>` (pre-`strip`), the `content`
attribute of `<meta name="description">` when the tag exists and the
attribute is truthy, the JSON-LD script tags in document order, the text
of the `page-content-area` element when one exists, and the
whole-document text after `script`/`style`/`nav`/`footer` are
decomposed (the fallback branch). -/
structure HtmlPage where
  titleText : Option String
  h1Text : Option String
  metaDescContent : Option String
  ldJsonScripts : List BlockContent
  contentAreaText : Option String
  strippedBodyText : String
deriving DecidableEq

/-- The JSON-LD loop of `scrape_seo_data` (lines 189-197): collect the
raw text of every block that parses, and clear `valid_json` when any
non-empty block fails to parse.  Returns `(schemas, valid_json)`. -/
def scanSchemas : List BlockContent → List (String × JVal) × Bool
  | [] => ([], true)
  | b :: rest =>
    let s := scanSchemas rest
    match b with
    | .noString => s
    | .invalid _ => (s.1, false)
    | .valid raw v => ((raw, v) :: s.1, s.2)

/-- The retained part of a block: the raw text (with its parse) of a
syntactically valid block, nothing otherwise. -/
def validPart : BlockContent → Option (String × JVal)
  | .valid raw v => some (raw, v)
  | _ => none

/-- The success path of `scrape_seo_data(url)` on a fetched, parsed
page. -/
def scrape_seo_data (page : HtmlPage) : PageData :=
  let title := match page.titleText with
    | some t => pyStrip t
    | none => "MISSING"
  let h1 := match page.h1Text with
    | some t => pyStrip t
    | none => "MISSING"
  let meta_desc := match page.metaDescContent with
    | some c => if c = "" then "MISSING" else pyStrip c
    | none => "MISSING"
  let scan := scanSchemas page.ldJsonScripts
  let body_text := pyStrip (match page.contentAreaText with
    | some t => t
    | none => page.strippedBodyText)
  { title := title
    h1 := h1
    metaDescription := meta_desc
    schemaRaw := scan.1
    jsonValid := scan.2
    bodyText := body_text
    echoScore := computeEcho meta_desc body_text }

/-! Embedding of the schema-flattening step of the audit loop
(lines 320-337).  Python semantics that matter here: `"@graph" in j`
is a key test only when `j` is a dict (on a list it is element
membership, on a string a substring test, otherwise a `TypeError`);
`j.get` exists only on dicts (`AttributeError` otherwise); list indexing
with the string `"@graph"` is a `TypeError`; and the whole per-block body
runs under `try: ... except Exception: pass`, so an exception abandons
the rest of the block but keeps whatever was already appended. -/

/-- Python `dict.get` on a parsed JSON object (keys are unique after
`json.loads`). -/
def pyLookup (fields : List (String × JVal)) (k : String) : Option JVal :=
  (fields.find? (fun f => f.1 = k)).map (fun f => f.2)

/-- The `for item in j["@graph"]` loop body: `item.get("@type", "Unknown")`
appended per item; the first non-dict item raises `AttributeError`, which
the block's `except` swallows, keeping the appends made so far. -/
def collectGraph : List JVal → List JVal
  | [] => []
  | .jobj f :: rest => (pyLookup f "@type").getD (.jstr "Unknown") :: collectGraph rest
  | _ :: _ => []

/-- What one parsed block contributes to `schema_list`.  Every non-dict
top-level value contributes nothing: a top-level list either fails the
`j["@graph"]` indexing (`TypeError`) or the `j.get` call
(`AttributeError`); a string, number, bool or null likewise dies in
`"@graph" in j` or `j.get`; in each case the exception is swallowed
before anything is appended. -/
def flattenBlock : JVal → List JVal
  | .jobj fields =>
    match pyLookup fields "@graph" with
    | some (.jarr items) => collectGraph items
    | some _ => []
    | none => [(pyLookup fields "@type").getD (.jstr "Unknown")]
  | _ => []

/-- `schema_list`: the per-block contributions in order (one shared list
mutated across blocks; a block's exception never unwinds past its own
iteration). -/
def buildSchemaList (schemas : List (String × JVal)) : List JVal :=
  schemas.flatMap (fun s => flattenBlock s.2)

/-- `flat_schema`: the second pass that splices list-valued `@type`
entries (`isinstance(item, list)`) into the flat sequence. -/
def flatten2 : List JVal → List JVal
  | [] => []
  | .jarr xs :: rest => xs ++ flatten2 rest
  | x :: rest => x :: flatten2 rest

/-- `flat_schema` of a scraped page, as the audit loop computes it. -/
def flatSchemaOf (data : PageData) : List JVal :=
  flatten2 (buildSchemaList data.schemaRaw)

/-! Embedding of the URL handling of the audit loop (lines 278-288) and
`urllib.parse.urlparse(...).path` / `urllib.parse.quote` as the script
uses them. -/

/-- `urlparse(url).path` for a URL that starts with `http://` or
`https://` (the loop guarantees the prefix before calling it): drop the
scheme and `://`, drop the netloc (everything up to the first `/`, `?`
or `#`), keep the rest up to the first `?` or `#` (query and fragment
discarded), then split off `;params` when a `;` occurs in the last path
segment (`urllib.parse._splitparams`). -/
def urlparse_path (url : String) : String :=
  let cs := url.toList
  let afterScheme :=
    if pyStartsWith url "https://" then cs.drop 8
    else if pyStartsWith url "http://" then cs.drop 7
    else cs
  let rest := afterScheme.dropWhile (fun c => c ≠ '/' ∧ c ≠ '?' ∧ c ≠ '#')
  let p := rest.takeWhile (fun c => c ≠ '?' ∧ c ≠ '#')
  let i := p.length - (p.reverse.takeWhile (fun c => c ≠ '/')).length
  let lastSeg := p.drop i
  String.mk (if ';' ∈ lastSeg then p.take i ++ lastSeg.takeWhile (fun c => c ≠ ';') else p)

/-- Characters `urllib.parse.quote` leaves unencoded with its default
`safe='/'`: ASCII letters, digits, `_.-~` and `/`. -/
def quoteSafe (c : Char) : Bool :=
  (('a' ≤ c ∧ c ≤ 'z') ∨ ('A' ≤ c ∧ c ≤ 'Z') ∨ ('0' ≤ c ∧ c ≤ '9')) ∨
    c = '_' ∨ c = '.' ∨ c = '-' ∨ c = '~' ∨ c = '/'

/-- Uppercase hex digit of a nibble. -/
def hexDigit (n : Nat) : Char :=
  if n < 10 then Char.ofNat ('0'.toNat + n)
  else Char.ofNat ('A'.toNat + (n - 10))

/-- UTF-8 encoding of one code point, as byte values. -/
def utf8Bytes (c : Char) : List Nat :=
  let n := c.toNat
  if n < 0x80 then [n]
  else if n < 0x800 then [0xC0 + n / 0x40, 0x80 + n % 0x40]
  else if n < 0x10000 then
    [0xE0 + n / 0x1000, 0x80 + (n / 0x40) % 0x40, 0x80 + n % 0x40]
  else
    [0xF0 + n / 0x40000, 0x80 + (n / 0x1000) % 0x40, 0x80 + (n / 0x40) % 0x40,
      0x80 + n % 0x40]

/-- `urllib.parse.quote(s)`: UTF-8 percent-encoding of every byte whose
character is not in the safe set. -/
def pyQuote (s : String) : String :=
  String.mk ((s.toList.flatMap utf8Bytes).flatMap (fun b =>
    if b < 128 ∧ quoteSafe (Char.ofNat b) then [Char.ofNat b]
    else ['%', hexDigit (b / 16), hexDigit (b % 16)]))

/-! Embedding of `detect_csv_columns` and the "Run Audit" block.  A CSV
row from `csv.DictReader` is an insertion-ordered dict with unique keys,
modelled as an association list. -/

/-- One CSV row: column name to cell value, in column order. -/
abbrev Row := List (String × String)

/-- Python `row.get(key, "")`. -/
def pyGet (row : Row) (k : String) : String :=
  ((row.find? (fun f => f.1 = k)).map (fun f => f.2)).getD ""

/-- The ordered URL-column candidates of `detect_csv_columns`. -/
def url_candidates : List String :=
  ["url", "page url", "page_url", "loc", "link", "address"]

/-- The ordered title-column candidates of `detect_csv_columns`. -/
def title_candidates : List String :=
  ["page title", "title", "page", "name"]

/-- Lookup in the `headers_norm` dict comprehension
`{h.strip().lower(): h for h in headers}`: when two headers normalise to
the same key the later one overwrites the earlier, so the lookup finds
the last. -/
def normLookup (headers : List String) (cand : String) : Option String :=
  ((headers.reverse).find? (fun h => pyLower (pyStrip h) = cand))

/-- `detect_csv_columns(rows)`: `(url_key, title_key, headers)`. -/
def detect_csv_columns (rows : List Row) : Option String × Option String × List String :=
  match rows with
  | [] => (none, none, [])
  | r0 :: _ =>
    let headers := (r0.map (fun f => f.1)).filter (fun h => h ≠ "")
    let url_key0 := url_candidates.findSome? (fun c => normLookup headers c)
    let title_key := title_candidates.findSome? (fun c => normLookup headers c)
    -- If there is only one column, assume it's the URL column
    let url_key :=
      if url_key0.isNone ∧ headers.length = 1 then headers.head? else url_key0
    (url_key, title_key, headers)

/-- The sidebar configuration the audit loop consumes: the
"Enable AI Analysis" checkbox, the "Override Domain" checkbox and the
staging-domain text field. -/
structure AuditConfig where
  use_ai : Bool
  use_staging : Bool
  staging_domain : String

/-- One row of the `results` list the audit loop appends.  `flatSchema`
holds the pre-display `flat_schema` list (the "🔍 Found Schema" cell
renders it as the sorted, de-duplicated, comma-joined set).  `status`
and `error` are the two keys only the error-branch dictionary has. -/
structure AuditRecord where
  pageTitle : String
  url : String
  score : Int
  scoreLog : String
  currentTitle : String
  h1Tag : String
  currentDesc : String
  aiSuggestedDesc : String
  flatSchema : List JVal
  rxSchema : String
  verify : String
  status : Option String
  error : Option String
deriving DecidableEq

/-- The error-branch dictionary (lines 298-315). -/
def errorRecord (display_name url e : String) : AuditRecord :=
  { pageTitle := display_name, url := url, score := 0, scoreLog := "",
    currentTitle := "", h1Tag := "", currentDesc := "",
    aiSuggestedDesc := "-", flatSchema := [], rxSchema := "",
    verify := "", status := some "ERROR", error := some e }

/-- URL normalisation of the loop (lines 278-288): strip, prefix
`https://` when no scheme, then substitute the staging domain keeping
only the parsed path. -/
def add_scheme (u : String) : String :=
  if pyStartsWith u "http://" ∨ pyStartsWith u "https://" then u else "https://" ++ u

/-- The staging-domain substitution (lines 284-288). -/
def apply_staging (use_staging : Bool) (dom u : String) : String :=
  if use_staging ∧ dom ≠ "" then "https://" ++ dom ++ urlparse_path u else u

/-- The full per-row URL normalisation. -/
def normalize_url (cfg : AuditConfig) (raw : String) : String :=
  apply_staging cfg.use_staging cfg.staging_domain (add_scheme (pyStrip raw))

/-- The `ai_feedback` dictionary for a page: `analyze_with_gemini`
(an external collaborator, passed in as `ai`) when the checkbox is on,
else the empty dict. -/
def ai_for (ai : String → String → String → List JVal → AiResult) (cfg : AuditConfig)
    (data : PageData) (flat : List JVal) : AiResult :=
  if cfg.use_ai then ai data.bodyText data.title data.metaDescription flat else emptyAi

/-- The fixed verification-link template (line 350). -/
def verifyLink (url : String) : String :=
  "https://search.google.com/test/rich-results?url=" ++ pyQuote url

/-- One iteration of the audit loop (lines 271-366): `none` when the row
is skipped for a blank URL, otherwise the appended record.  `fetch`
stands for `requests.get` + BeautifulSoup inside `scrape_seo_data`; its
`Except.error` is the `{"Error": str(e)}` branch of that function. -/
def processRow (fetch : String → Except String HtmlPage)
    (ai : String → String → String → List JVal → AiResult)
    (cfg : AuditConfig) (url_key : String) (title_key : Option String)
    (row : Row) : Option AuditRecord :=
  let csv_title := match title_key with
    | some k => pyGet row k
    | none => pyGet row "Page Title"
  let url0 := pyGet row url_key
  if pyStrip url0 = "" then none
  else
    let url := normalize_url cfg url0
    let display_name := if pyStrip csv_title ≠ "" then pyStrip csv_title else url
    match fetch url with
    | .error e => some (errorRecord display_name url e)
    | .ok page =>
      let data := scrape_seo_data page
      let display_name := if pyStrip csv_title ≠ "" then display_name else data.title
      let flat := flatSchemaOf data
      let ai_feedback := ai_for ai cfg data flat
      let scored := calculate_score data ai_feedback
      some
        { pageTitle := display_name, url := url, score := scored.1,
          scoreLog := String.intercalate ", " scored.2,
          currentTitle := data.title, h1Tag := data.h1,
          currentDesc := data.metaDescription,
          aiSuggestedDesc := ai_feedback.suggested_desc.getD "-",
          flatSchema := flat,
          rxSchema := ai_feedback.schema_prescription.getD "-",
          verify := verifyLink url, status := none, error := none }

/-- `results.sort(key=lambda x: x.get("Score", 0))`: Python `list.sort`
is a stable ascending sort.  Insertion before the first element of
greater-or-equal score keeps ties in original order, which is
extensionally the behaviour of any stable sort. -/
def insertRec (x : AuditRecord) : List AuditRecord → List AuditRecord
  | [] => [x]
  | y :: ys => if x.score ≤ y.score then x :: y :: ys else y :: insertRec x ys

/-- Stable ascending sort of the result records by score. -/
def sortRecs : List AuditRecord → List AuditRecord
  | [] => []
  | x :: xs => insertRec x (sortRecs xs)

/-- The four terminal states of the "Run Audit" block. -/
inductive AuditOutcome where
  | fatalEmpty : AuditOutcome
  | fatalNoUrlColumn : List String → AuditOutcome
  | noValidUrls : AuditOutcome
  | ok : List AuditRecord → AuditOutcome
deriving DecidableEq

/-- The "Run Audit" block (lines 246-379): empty-CSV abort, column
detection (aborting with the headers when no URL column resolves), the
per-row loop (each row independent: the loop keeps no cross-row state
besides the append-only list), the zero-processed warning, and the final
ascending stable sort by score. -/
def run_audit (fetch : String → Except String HtmlPage)
    (ai : String → String → String → List JVal → AiResult)
    (cfg : AuditConfig) (rows : List Row) : AuditOutcome :=
  if rows.isEmpty then .fatalEmpty
  else
    let det := detect_csv_columns rows
    match det.1 with
    | none => .fatalNoUrlColumn det.2.2
    | some url_key =>
      let results := rows.filterMap (processRow fetch ai cfg url_key det.2.1)
      if results.isEmpty then .noValidUrls
      else .ok (sortRecs results)

/-- Well-formedness of a matching block `(i, j, k)` on the range
`(alo, ahi, blo, bhi)`: it lies inside the range on both sides. -/
abbrev blockWF (alo ahi blo bhi : Nat) (t : Nat × Nat × Nat) : Prop :=
  alo ≤ t.1 ∧ blo ≤ t.2.1 ∧ t.1 + t.2.2 ≤ ahi ∧ t.2.1 + t.2.2 ≤ bhi

/-! ## Sequence-matcher lemmas: every block stays inside its range, so
the total match size never exceeds either side's length. -/

theorem runEnd_le_i (a b : List Char) (pop : Char → Bool) (alo blo : Nat) :
    ∀ i j, alo ≤ i → alo + runEnd a b pop alo blo i j ≤ i + 1 := by
  intro i
  induction i using Nat.strong_induction_on with
  | _ i ih =>
    intro j hi
    rw [runEnd]
    split
    · split_ifs with hc hr
      · have := ih (i - 1) (by omega) (j - 1) (by omega)
        omega
      · omega
      · omega
    · omega

theorem runEnd_le_j (a b : List Char) (pop : Char → Bool) (alo blo : Nat) :
    ∀ i j, blo ≤ j → blo + runEnd a b pop alo blo i j ≤ j + 1 := by
  intro i
  induction i using Nat.strong_induction_on with
  | _ i ih =>
    intro j hj
    rw [runEnd]
    split
    · split_ifs with hc hr
      · have := ih (i - 1) (by omega) (j - 1) (by omega)
        omega
      · omega
      · omega
    · omega

theorem foldl_inv {α β : Type} {P : β → Prop} (f : β → α → β) (l : List α) (init : β)
    (h0 : P init) (hstep : ∀ acc x, x ∈ l → P acc → P (f acc x)) : P (l.foldl f init) := by
  induction l generalizing init with
  | nil => exact h0
  | cons y ys ih =>
    exact ih (f init y) (hstep init y (by simp) h0)
      (fun acc x hx => hstep acc x (by simp [hx]))

theorem pairsLex_mem {alo ahi blo bhi : Nat} {ij : Nat × Nat}
    (h : ij ∈ pairsLex alo ahi blo bhi) :
    alo ≤ ij.1 ∧ ij.1 < ahi ∧ blo ≤ ij.2 ∧ ij.2 < bhi := by
  simp only [pairsLex, List.mem_flatMap, List.mem_map, List.mem_range'] at h
  obtain ⟨i, ⟨di, hdi, hieq⟩, j, ⟨dj, hdj, hjeq⟩, rfl⟩ := h
  omega

theorem blockWF_mk {alo ahi blo bhi i j k : Nat} (h1 : alo ≤ i) (h2 : blo ≤ j)
    (h3 : i + k ≤ ahi) (h4 : j + k ≤ bhi) : blockWF alo ahi blo bhi (i, j, k) :=
  ⟨h1, h2, h3, h4⟩

theorem flmBest_wf (a b : List Char) (pop : Char → Bool) {alo ahi blo bhi : Nat}
    (ha : alo ≤ ahi) (hb : blo ≤ bhi) :
    blockWF alo ahi blo bhi (flmBest a b pop alo ahi blo bhi) := by
  unfold flmBest
  apply foldl_inv (P := blockWF alo ahi blo bhi)
  · exact blockWF_mk (le_refl _) (le_refl _) (by omega) (by omega)
  · intro acc ij hij hacc
    obtain ⟨m1, m2, m3, m4⟩ := pairsLex_mem hij
    dsimp only
    split
    · have hk1 := runEnd_le_i a b pop alo blo ij.1 ij.2 m1
      have hk2 := runEnd_le_j a b pop alo blo ij.1 ij.2 m3
      exact blockWF_mk (by omega) (by omega) (by omega) (by omega)
    · exact hacc

theorem extendLeft_wf (a b : List Char) {alo ahi blo bhi : Nat} :
    ∀ i j k, blockWF alo ahi blo bhi (i, j, k) →
      blockWF alo ahi blo bhi (extendLeft a b alo blo i j k) := by
  intro i
  induction i using Nat.strong_induction_on with
  | _ i ih =>
    intro j k h
    have e1 : alo ≤ i := h.1
    have e2 : blo ≤ j := h.2.1
    have e3 : i + k ≤ ahi := h.2.2.1
    have e4 : j + k ≤ bhi := h.2.2.2
    rw [extendLeft]
    split_ifs with hc
    · exact ih (i - 1) (by omega) (j - 1) (k + 1)
        (blockWF_mk (by omega) (by omega) (by omega) (by omega))
    · exact h

theorem extendRight_wf_aux (a b : List Char) {alo ahi blo bhi : Nat} :
    ∀ n i j k, n = ahi - (i + k) → blockWF alo ahi blo bhi (i, j, k) →
      blockWF alo ahi blo bhi (i, j, extendRight a b ahi bhi i j k) := by
  intro n
  induction n using Nat.strong_induction_on with
  | _ n ih =>
    intro i j k hn h
    have e1 : alo ≤ i := h.1
    have e2 : blo ≤ j := h.2.1
    have e3 : i + k ≤ ahi := h.2.2.1
    have e4 : j + k ≤ bhi := h.2.2.2
    rw [extendRight]
    split_ifs with hc
    · exact ih (ahi - (i + (k + 1))) (by omega) i j (k + 1) rfl
        (blockWF_mk e1 e2 (by omega) (by omega))
    · exact h

theorem extendRight_wf (a b : List Char) {alo ahi blo bhi : Nat} (i j k : Nat)
    (h : blockWF alo ahi blo bhi (i, j, k)) :
    blockWF alo ahi blo bhi (i, j, extendRight a b ahi bhi i j k) :=
  extendRight_wf_aux a b (ahi - (i + k)) i j k rfl h

theorem find_longest_match_wf (a b : List Char) (pop : Char → Bool)
    (alo ahi blo bhi : Nat) (ha : alo ≤ ahi) (hb : blo ≤ bhi) :
    blockWF alo ahi blo bhi (find_longest_match a b pop alo ahi blo bhi) := by
  unfold find_longest_match
  have h1 := flmBest_wf a b pop ha hb
  have h2 := extendLeft_wf a b (flmBest a b pop alo ahi blo bhi).1
    (flmBest a b pop alo ahi blo bhi).2.1 (flmBest a b pop alo ahi blo bhi).2.2 h1
  exact extendRight_wf a b _ _ _ h2

theorem matchesTotal_le (a b : List Char) (pop : Char → Bool) :
    ∀ fuel alo ahi blo bhi, alo ≤ ahi → blo ≤ bhi →
      matchesTotal a b pop fuel alo ahi blo bhi ≤ min (ahi - alo) (bhi - blo) := by
  intro fuel
  induction fuel with
  | zero => intro alo ahi blo bhi _ _; exact Nat.zero_le _
  | succ fuel ih =>
    intro alo ahi blo bhi ha hb
    have hwf := find_longest_match_wf a b pop alo ahi blo bhi ha hb
    have w1 : alo ≤ (find_longest_match a b pop alo ahi blo bhi).1 := hwf.1
    have w2 : blo ≤ (find_longest_match a b pop alo ahi blo bhi).2.1 := hwf.2.1
    have w3 : (find_longest_match a b pop alo ahi blo bhi).1 +
        (find_longest_match a b pop alo ahi blo bhi).2.2 ≤ ahi := hwf.2.2.1
    have w4 : (find_longest_match a b pop alo ahi blo bhi).2.1 +
        (find_longest_match a b pop alo ahi blo bhi).2.2 ≤ bhi := hwf.2.2.2
    rw [matchesTotal]
    split_ifs with hz
    · exact Nat.zero_le _
    · have hL := ih alo (find_longest_match a b pop alo ahi blo bhi).1 blo
        (find_longest_match a b pop alo ahi blo bhi).2.1 w1 w2
      have hR := ih ((find_longest_match a b pop alo ahi blo bhi).1 +
          (find_longest_match a b pop alo ahi blo bhi).2.2) ahi
        ((find_longest_match a b pop alo ahi blo bhi).2.1 +
          (find_longest_match a b pop alo ahi blo bhi).2.2) bhi w3 w4
      omega

theorem matcherSimilarity_bounds (sa sb : String) :
    0 ≤ matcherSimilarity sa sb ∧ matcherSimilarity sa sb ≤ 1 := by
  unfold matcherSimilarity
  dsimp only
  split_ifs with h
  · norm_num
  · have hm := matchesTotal_le sa.toList sb.toList (autojunkPopular sb.toList)
      (sa.toList.length + sb.toList.length + 1) 0 sa.toList.length 0 sb.toList.length
      (Nat.zero_le _) (Nat.zero_le _)
    have hpos : (0 : ℚ) < (sa.toList.length : ℚ) + (sb.toList.length : ℚ) := by
      have : 0 < sa.toList.length + sb.toList.length := by omega
      exact_mod_cast this
    constructor
    · positivity
    · rw [div_le_one hpos]
      have h2 : 2 * matchesTotal sa.toList sb.toList (autojunkPopular sb.toList)
          (sa.toList.length + sb.toList.length + 1) 0 sa.toList.length 0 sb.toList.length ≤
          sa.toList.length + sb.toList.length := by omega
      exact_mod_cast h2

/-! ## Claim about the echo detector (C7) -/

/-- C7: the echo score is `0` whenever the meta description is the
"MISSING" sentinel or the body text is empty; otherwise it is the
sequence-matcher similarity ratio of the full description against the
body-text prefix of length `len(description) + 50`, scaled by 100; and
in every case it lies in `[0, 100]`. -/
theorem echo_score_cases_and_range (meta_desc body_text : String) :
    computeEcho meta_desc body_text =
        (if meta_desc ≠ "MISSING" ∧ body_text ≠ "" then
          matcherSimilarity meta_desc (String.mk (body_text.toList.take (meta_desc.length + 50))) * 100
        else 0) ∧
      computeEcho "MISSING" body_text = 0 ∧
      computeEcho meta_desc "" = 0 ∧
      0 ≤ computeEcho meta_desc body_text ∧
      computeEcho meta_desc body_text ≤ 100 := by
  refine ⟨rfl, by simp [computeEcho], by simp [computeEcho], ?_, ?_⟩
  · unfold computeEcho
    split_ifs with h
    · have h1 := (matcherSimilarity_bounds meta_desc
        (String.mk (body_text.toList.take (meta_desc.length + 50)))).1
      nlinarith
    · exact le_refl 0
  · unfold computeEcho
    split_ifs with h
    · have h2 := (matcherSimilarity_bounds meta_desc
        (String.mk (body_text.toList.take (meta_desc.length + 50)))).2
      nlinarith
    · norm_num

/-! ## Score-engine lemmas -/

theorem calculate_score_fst (d : PageData) (a : AiResult) :
    (calculate_score d a).1 = max 0 (100 - penaltyTotal d a) := by
  simp only [calculate_score, penaltyTotal]
  split_ifs <;> omega

theorem penaltyTotal_nonneg (d : PageData) (a : AiResult) : 0 ≤ penaltyTotal d a := by
  simp only [penaltyTotal]
  split_ifs <;> omega

theorem ite_penalty_mono {p q : Prop} [Decidable p] [Decidable q] (k : Int)
    (hk : 0 ≤ k) (hpq : p → q) :
    (if p then k else 0) ≤ (if q then k else 0) := by
  split_ifs with h1 h2
  · omega
  · exact absurd (hpq h1) h2
  · omega
  · omega

theorem penaltyTotal_mono (d1 d2 : PageData) (a1 a2 : AiResult)
    (h1 : trigBrokenSchema d1 → trigBrokenSchema d2)
    (h2 : trigMissingTitle d1 → trigMissingTitle d2)
    (h3 : trigMissingH1 d1 → trigMissingH1 d2)
    (h4 : trigEchoHigh d1 → trigEchoHigh d2)
    (h5 : trigBadTitleLen d1 → trigBadTitleLen d2)
    (h6 : trigLowRating a1 → trigLowRating a2)
    (h7 : trigSchemaRx a1 → trigSchemaRx a2) :
    penaltyTotal d1 a1 ≤ penaltyTotal d2 a2 := by
  simp only [penaltyTotal]
  have g1 := ite_penalty_mono (p := trigBrokenSchema d1) (q := trigBrokenSchema d2)
    30 (by omega) h1
  have g2 := ite_penalty_mono (p := trigMissingTitle d1) (q := trigMissingTitle d2)
    20 (by omega) h2
  have g3 := ite_penalty_mono (p := trigMissingH1 d1) (q := trigMissingH1 d2)
    10 (by omega) h3
  have g4 := ite_penalty_mono (p := trigEchoHigh d1) (q := trigEchoHigh d2)
    15 (by omega) h4
  have g5 := ite_penalty_mono (p := trigBadTitleLen d1) (q := trigBadTitleLen d2)
    5 (by omega) h5
  have g6 := ite_penalty_mono (p := trigLowRating a1) (q := trigLowRating a2)
    20 (by omega) h6
  have g7 := ite_penalty_mono (p := trigSchemaRx a1) (q := trigSchemaRx a2)
    10 (by omega) h7
  omega

/-! ## Claims about the score engine (C1, C2, C3, C6) -/

/-- C1 counterexample: a PageSnapshot whose meta description is the
"MISSING" sentinel, every other signal clean, scores 100 with an empty
log — no "Missing Meta Desc" entry and no 20-point deduction appear. -/
theorem missing_meta_desc_never_logged :
    (⟨"A Reasonable Title", "Heading", "MISSING", [], true, "body", 0⟩ : PageData).metaDescription
        = "MISSING" ∧
      calculate_score ⟨"A Reasonable Title", "Heading", "MISSING", [], true, "body", 0⟩ emptyAi
        = (100, []) ∧
      ((calculate_score ⟨"A Reasonable Title", "Heading", "MISSING", [], true, "body", 0⟩
          emptyAi).2.any (fun e => pySubstr "Missing Meta Desc" e)) = false := by
  decide

/-- C1 amended: `calculate_score` never reads the meta description, so
for every PageSnapshot (in particular one with
`metaDescription == "MISSING"`) no meta-description deduction exists:
score and log are invariant under any change of that field. -/
theorem calculate_score_ignores_meta_desc (d : PageData) (a : AiResult) (md : String) :
    calculate_score { d with metaDescription := md } a = calculate_score d a := rfl

/-- C2 counterexample: the spec's end-to-end scenario (title missing,
meta description present and non-boilerplate, valid JSON-LD, H1 present,
AI disabled) does not score 80 with the single log entry
"Missing Title (-20)". -/
theorem missing_title_scenario_not_80 :
    ¬ (calculate_score ⟨"MISSING", "Heading", "a plain description", [], true, "body text", 0⟩
        emptyAi = (80, ["Missing Title (-20)"])) := by
  decide

/-- C2 amended: in that scenario the sentinel title "MISSING" has length
7, so the bad-title-length deduction fires as well: the score is 75 and
the log holds exactly "Missing Title (-20)" and "Bad Title Len (-5)". -/
theorem missing_title_scenario_score (d : PageData)
    (ht : d.title = "MISSING") (hj : d.jsonValid = true)
    (hh : d.h1 ≠ "MISSING") (_hm : d.metaDescription ≠ "MISSING")
    (he : d.echoScore ≤ 85) :
    calculate_score d emptyAi = (75, ["Missing Title (-20)", "Bad Title Len (-5)"]) := by
  have hne : ¬ (85 < d.echoScore) := not_lt.mpr he
  have hjf : ¬ (d.jsonValid = false) := by simp [hj]
  simp [calculate_score, emptyAi, ht, hjf, hh, hne]
  decide

/-- C2 amended witness: the scenario at a concrete snapshot. -/
theorem missing_title_scenario_score_witness :
    calculate_score ⟨"MISSING", "Heading", "a plain description", [], true, "body text", 0⟩
      emptyAi = (75, ["Missing Title (-20)", "Bad Title Len (-5)"]) :=
  missing_title_scenario_score
    ⟨"MISSING", "Heading", "a plain description", [], true, "body text", 0⟩
    rfl rfl (by decide) (by decide) (by norm_num)

/-- C3: an all-"Error" opinion whose carried failure message does not
contain the substring "Error" (here `str(e) = "timed out"`) is not
score-neutral: the "Missing Specific Schema (-10)" deduction fires and
the score drops to 90, while the same snapshot with the empty opinion
scores 100.  The "Low Content Relevance" deduction does not fire (the
rating is "Error", not "Low"). -/
theorem error_opinion_not_neutral :
    calculate_score ⟨"A Reasonable Title", "Heading", "a description", [], true, "body", 0⟩
        (error_opinion "timed out") = (90, ["Missing Specific Schema (-10)"]) ∧
      calculate_score ⟨"A Reasonable Title", "Heading", "a description", [], true, "body", 0⟩
        emptyAi = (100, []) ∧
      (error_opinion "timed out").rating = some "Error" ∧
      ¬ trigLowRating (error_opinion "timed out") := by
  decide

/-- C6: the score is clamped to `[0, 100]` (deductions are non-positive
from the 100 base, the final `max 0` clamps below), and it is
monotonically non-increasing as deduction triggers become true: if every
trigger of `(d1, a1)` also holds of `(d2, a2)`, the second score is at
most the first. -/
theorem score_in_range_and_monotone (d1 d2 : PageData) (a1 a2 : AiResult)
    (h1 : trigBrokenSchema d1 → trigBrokenSchema d2)
    (h2 : trigMissingTitle d1 → trigMissingTitle d2)
    (h3 : trigMissingH1 d1 → trigMissingH1 d2)
    (h4 : trigEchoHigh d1 → trigEchoHigh d2)
    (h5 : trigBadTitleLen d1 → trigBadTitleLen d2)
    (h6 : trigLowRating a1 → trigLowRating a2)
    (h7 : trigSchemaRx a1 → trigSchemaRx a2) :
    0 ≤ (calculate_score d1 a1).1 ∧ (calculate_score d1 a1).1 ≤ 100 ∧
      (calculate_score d2 a2).1 ≤ (calculate_score d1 a1).1 := by
  have e1 := calculate_score_fst d1 a1
  have e2 := calculate_score_fst d2 a2
  have p1 := penaltyTotal_nonneg d1 a1
  have p2 := penaltyTotal_nonneg d2 a2
  have m := penaltyTotal_mono d1 d2 a1 a2 h1 h2 h3 h4 h5 h6 h7
  omega

/-! ## Extraction lemmas and claims (C4, C10) -/

theorem scanSchemas_flag : ∀ l : List BlockContent,
    (scanSchemas l).2 = false ↔ ∃ s, BlockContent.invalid s ∈ l := by
  intro l
  induction l with
  | nil => simp [scanSchemas]
  | cons b rest ih =>
    cases b with
    | noString => simpa [scanSchemas] using ih
    | invalid s => simp [scanSchemas]
    | valid raw v => simpa [scanSchemas] using ih

theorem scanSchemas_keeps : ∀ l : List BlockContent,
    (scanSchemas l).1 = l.filterMap validPart := by
  intro l
  induction l with
  | nil => simp [scanSchemas]
  | cons b rest ih =>
    cases b with
    | noString => simpa [scanSchemas, validPart] using ih
    | invalid s => simpa [scanSchemas, validPart] using ih
    | valid raw v => simpa [scanSchemas, validPart] using ih

/-- C4: a scraped page's `jsonValid` flag is false exactly when at least
one JSON-LD block with text fails strict JSON parsing, and the raw
blocks kept are all the parseable ones — a failing block never stops the
extraction of the blocks after it. -/
theorem jsonValid_iff_no_bad_block (page : HtmlPage) :
    ((scrape_seo_data page).jsonValid = false ↔
        ∃ s, BlockContent.invalid s ∈ page.ldJsonScripts) ∧
      (scrape_seo_data page).schemaRaw = page.ldJsonScripts.filterMap validPart :=
  ⟨scanSchemas_flag page.ldJsonScripts, scanSchemas_keeps page.ldJsonScripts⟩

/-- C10: a JSON-LD block whose top-level value is an array counts as
valid (the page's `jsonValid` stays true) but contributes no type name
to the flattened schema list — the `j["@graph"]` / `j.get` lookup
failure is swallowed — so a page whose only block is a top-level array
reports an empty schema set. -/
theorem array_block_contributes_nothing (xs : List JVal) (raw : String)
    (t h1 m c : Option String) (bt : String) :
    (scrape_seo_data ⟨t, h1, m, [BlockContent.valid raw (JVal.jarr xs)], c, bt⟩).jsonValid
        = true ∧
      flatSchemaOf
        (scrape_seo_data ⟨t, h1, m, [BlockContent.valid raw (JVal.jarr xs)], c, bt⟩) = [] ∧
      (∀ ys : List JVal, flattenBlock (JVal.jarr ys) = []) :=
  ⟨rfl, rfl, fun _ => rfl⟩

/-! ## Sorting lemmas: `sortRecs` is an ascending stable sort by score -/

theorem insertRec_perm (x : AuditRecord) : ∀ l, (insertRec x l).Perm (x :: l) := by
  intro l
  induction l with
  | nil => exact List.Perm.refl _
  | cons y ys ih =>
    simp only [insertRec]
    split_ifs with h
    · exact List.Perm.refl _
    · exact (ih.cons y).trans (List.Perm.swap x y ys)

theorem sortRecs_perm : ∀ l, (sortRecs l).Perm l := by
  intro l
  induction l with
  | nil => exact List.Perm.refl _
  | cons x xs ih => exact (insertRec_perm x (sortRecs xs)).trans (ih.cons x)

theorem insertRec_sorted (x : AuditRecord) :
    ∀ l, List.Pairwise (fun a b : AuditRecord => a.score ≤ b.score) l →
      List.Pairwise (fun a b : AuditRecord => a.score ≤ b.score) (insertRec x l) := by
  intro l
  induction l with
  | nil => simp [insertRec]
  | cons y ys ih =>
    intro hp
    have hy : ∀ z ∈ ys, y.score ≤ z.score := (List.pairwise_cons.mp hp).1
    have hys := (List.pairwise_cons.mp hp).2
    simp only [insertRec]
    split_ifs with h
    · refine List.pairwise_cons.mpr ⟨?_, hp⟩
      intro z hz
      rcases List.mem_cons.mp hz with rfl | hz'
      · exact h
      · exact le_trans h (hy z hz')
    · refine List.pairwise_cons.mpr ⟨?_, ih hys⟩
      intro z hz
      rcases List.mem_cons.mp ((insertRec_perm x ys).mem_iff.mp hz) with rfl | hz'
      · omega
      · exact hy z hz'

theorem sortRecs_sorted :
    ∀ l, List.Pairwise (fun a b : AuditRecord => a.score ≤ b.score) (sortRecs l) := by
  intro l
  induction l with
  | nil => simp [sortRecs]
  | cons x xs ih => exact insertRec_sorted x (sortRecs xs) ih

theorem insertRec_filter_score (x : AuditRecord) (s : Int) :
    ∀ l, (insertRec x l).filter (fun r => decide (r.score = s)) =
      (x :: l).filter (fun r => decide (r.score = s)) := by
  intro l
  induction l with
  | nil => rfl
  | cons y ys ih =>
    simp only [insertRec]
    split_ifs with h
    · rfl
    · by_cases hx : x.score = s <;> by_cases hy : y.score = s
      · omega
      · simp [List.filter_cons, hx, hy, ih]
      · simp [List.filter_cons, hx, hy, ih]
      · simp [List.filter_cons, hx, hy, ih]

theorem sortRecs_filter_score (s : Int) :
    ∀ l, (sortRecs l).filter (fun r => decide (r.score = s)) =
      l.filter (fun r => decide (r.score = s)) := by
  intro l
  induction l with
  | nil => rfl
  | cons x xs ih =>
    calc (sortRecs (x :: xs)).filter (fun r => decide (r.score = s))
        = (x :: sortRecs xs).filter (fun r => decide (r.score = s)) :=
          insertRec_filter_score x s (sortRecs xs)
      _ = (x :: xs).filter (fun r => decide (r.score = s)) := by
          by_cases hx : x.score = s <;> simp [List.filter_cons, hx, ih]

/-! ## URL-normalisation lemmas and claim (C8) -/

theorem toList_mk (l : List Char) : (String.mk l).toList = l := rfl

theorem append_toList (s t : String) : s ++ t = String.mk (s.toList ++ t.toList) := by
  cases s
  cases t
  rfl

theorem isPrefixOf_append_self : ∀ (l t : List Char), l.isPrefixOf (l ++ t) = true := by
  intro l t
  induction l with
  | nil => simp [List.isPrefixOf]
  | cons c cs ih => simp [List.isPrefixOf, ih]

theorem dropWhile_append_all {p : Char → Bool} :
    ∀ (xs ys : List Char), (∀ x ∈ xs, p x = true) →
      (xs ++ ys).dropWhile p = ys.dropWhile p := by
  intro xs ys hall
  induction xs with
  | nil => rfl
  | cons c cs ih =>
    have hc : p c = true := hall c (by simp)
    simp only [List.cons_append, List.dropWhile_cons, hc, if_true]
    exact ih (fun x hx => hall x (by simp [hx]))

theorem takeWhile_append_all {p : Char → Bool} :
    ∀ (xs ys : List Char), (∀ x ∈ xs, p x = true) →
      (xs ++ ys).takeWhile p = xs ++ ys.takeWhile p := by
  intro xs ys hall
  induction xs with
  | nil => rfl
  | cons c cs ih =>
    have hc : p c = true := hall c (by simp)
    simp only [List.cons_append, List.takeWhile_cons, hc, if_true]
    rw [ih (fun x hx => hall x (by simp [hx]))]

/-- Path extraction on a URL composed of scheme, netloc, path, query and
fragment: the netloc is skipped, the path survives, query and fragment
are discarded (list-level core of the C8 claim). -/
theorem urlparse_path_parts (hostL pathL queryL fragL : List Char)
    (hhost : ∀ ch ∈ hostL, ch ≠ '/' ∧ ch ≠ '?' ∧ ch ≠ '#')
    (hpath0 : pathL = [] ∨ pathL.head? = some '/')
    (hpathc : ∀ ch ∈ pathL, ch ≠ '?' ∧ ch ≠ '#' ∧ ch ≠ ';') :
    urlparse_path (String.mk ("https://".toList ++
      (hostL ++ (pathL ++ ('?' :: (queryL ++ ('#' :: fragL))))))) = String.mk pathL := by
  unfold urlparse_path pyStartsWith
  rw [toList_mk, isPrefixOf_append_self]
  simp only [if_true]
  rw [List.drop_left' (by rfl)]
  rw [dropWhile_append_all _ _ (fun x hx => by
    obtain ⟨e1, e2, e3⟩ := hhost x hx
    simp [e1, e2, e3])]
  have hsemi : ¬ (';' ∈ pathL) := fun hmem => (hpathc ';' hmem).2.2 rfl
  rcases hpath0 with rfl | hhead
  · simp only [List.nil_append]
    rw [List.dropWhile_cons_of_neg (by decide)]
    rw [List.takeWhile_cons_of_neg (by decide)]
    simp
  · cases pathL with
    | nil => cases hhead
    | cons c0 cs =>
      have hc0 : c0 = '/' := by simpa using hhead
      subst hc0
      have hpassTail : ∀ x ∈ cs,
          (fun c : Char => decide (¬ c = '?' ∧ ¬ c = '#')) x = true := by
        intro x hx
        obtain ⟨e1, e2, _⟩ := hpathc x (by simp [hx])
        simp [e1, e2]
      have hp2 : List.takeWhile (fun c : Char => decide (¬ c = '?' ∧ ¬ c = '#'))
          (List.dropWhile (fun c : Char => decide (¬ c = '/' ∧ ¬ c = '?' ∧ ¬ c = '#'))
            (('/' :: cs) ++ ('?' :: (queryL ++ ('#' :: fragL))))) = '/' :: cs := by
        rw [List.cons_append]
        rw [List.dropWhile_cons_of_neg (by decide)]
        rw [show ('/' :: (cs ++ ('?' :: (queryL ++ ('#' :: fragL))))) =
          ('/' :: cs) ++ ('?' :: (queryL ++ ('#' :: fragL))) from by simp]
        rw [takeWhile_append_all _ _ (fun x hx => by
          rcases List.mem_cons.mp hx with rfl | hx'
          · decide
          · exact hpassTail x hx')]
        rw [List.takeWhile_cons_of_neg (by decide)]
        simp
      rw [hp2]
      rw [if_neg (fun hmem => hsemi (List.drop_subset _ _ hmem))]

/-- C8: a row URL without an `http://`/`https://` scheme is prefixed
with `https://`; with a staging override configured the host is replaced
by the override while the path is preserved and query/fragment are
discarded; and the spec's concrete example resolves to
`https://stage.example.com/a`. -/
theorem url_scheme_and_staging (raw dom host path query frag : String)
    (hdom : dom ≠ "")
    (hhost : ∀ ch ∈ host.toList, ch ≠ '/' ∧ ch ≠ '?' ∧ ch ≠ '#')
    (hpath0 : path = "" ∨ path.toList.head? = some '/')
    (hpathc : ∀ ch ∈ path.toList, ch ≠ '?' ∧ ch ≠ '#' ∧ ch ≠ ';') :
    (pyStartsWith raw "http://" = false → pyStartsWith raw "https://" = false →
        add_scheme raw = "https://" ++ raw) ∧
      urlparse_path ("https://" ++ host ++ path ++ "?" ++ query ++ "#" ++ frag) = path ∧
      apply_staging true dom ("https://" ++ host ++ path ++ "?" ++ query ++ "#" ++ frag) =
        "https://" ++ dom ++ path ∧
      normalize_url ⟨false, true, "stage.example.com"⟩ "example.com/a" =
        "https://stage.example.com/a" := by
  have hcomp : "https://" ++ host ++ path ++ "?" ++ query ++ "#" ++ frag =
      String.mk ("https://".toList ++
        (host.toList ++ (path.toList ++ ('?' :: (query.toList ++ ('#' :: frag.toList)))))) := by
    simp only [append_toList, toList_mk]
    rw [show ("?" : String).toList = ['?'] from rfl, show ("#" : String).toList = ['#'] from rfl]
    simp [List.append_assoc]
  have hp0 : path.toList = [] ∨ path.toList.head? = some '/' := by
    rcases hpath0 with rfl | hh
    · exact Or.inl rfl
    · exact Or.inr hh
  have hup : urlparse_path ("https://" ++ host ++ path ++ "?" ++ query ++ "#" ++ frag)
      = path := by
    rw [hcomp]
    rw [urlparse_path_parts host.toList path.toList query.toList frag.toList
      hhost hp0 hpathc]
    cases path
    rfl
  refine ⟨?_, hup, ?_, by decide⟩
  · intro hn1 hn2
    unfold add_scheme
    rw [if_neg]
    simp [hn1, hn2]
  · unfold apply_staging
    rw [if_pos ⟨rfl, hdom⟩, hup]

/-- C8 witness: the same facts at the spec's concrete inputs. -/
theorem url_scheme_and_staging_witness :
    (pyStartsWith "example.com/a" "http://" = false →
        pyStartsWith "example.com/a" "https://" = false →
        add_scheme "example.com/a" = "https://" ++ "example.com/a") ∧
      urlparse_path ("https://" ++ "www.example.com" ++ "/a" ++ "?" ++ "q=1" ++ "#" ++ "frag")
        = "/a" ∧
      apply_staging true "stage.example.com"
          ("https://" ++ "www.example.com" ++ "/a" ++ "?" ++ "q=1" ++ "#" ++ "frag") =
        "https://" ++ "stage.example.com" ++ "/a" ∧
      normalize_url ⟨false, true, "stage.example.com"⟩ "example.com/a" =
        "https://stage.example.com/a" :=
  url_scheme_and_staging "example.com/a" "stage.example.com" "www.example.com" "/a" "q=1"
    "frag" (by decide) (by decide) (Or.inr (by decide)) (by decide)

/-! ## Orchestrator claim (C5) -/

/-- C5: when an audit run completes, the exposed result sequence is the
stable ascending sort by score of the per-row records: it is sorted, it
is a permutation of the records in processing order, and records of
equal score keep their processing order.  Each non-skipped row yields
exactly one record: an error record with score 0, a populated error
field and status "ERROR" when its fetch/extract fails (later rows are
still processed, as the `filterMap` form shows), or a fully scored
record with an empty error field whose score is `calculate_score` of the
scraped page. -/
theorem audit_error_isolation_and_sort
    (fetch : String → Except String HtmlPage)
    (ai : String → String → String → List JVal → AiResult)
    (cfg : AuditConfig) (rows : List Row) (uk : String) (tk : Option String)
    (hs : List String) (results : List AuditRecord)
    (hdet : detect_csv_columns rows = (some uk, tk, hs))
    (hrun : run_audit fetch ai cfg rows = AuditOutcome.ok results) :
    results = sortRecs (rows.filterMap (processRow fetch ai cfg uk tk)) ∧
      List.Pairwise (fun a b : AuditRecord => a.score ≤ b.score) results ∧
      results.Perm (rows.filterMap (processRow fetch ai cfg uk tk)) ∧
      (∀ s : Int, results.filter (fun r => decide (r.score = s)) =
        (rows.filterMap (processRow fetch ai cfg uk tk)).filter
          (fun r => decide (r.score = s))) ∧
      (∀ row r, processRow fetch ai cfg uk tk row = some r →
        (∃ e, fetch r.url = Except.error e ∧ r.score = 0 ∧ r.error = some e ∧
          r.status = some "ERROR") ∨
        (∃ page, fetch r.url = Except.ok page ∧ r.error = none ∧ r.status = none ∧
          r.score = (calculate_score (scrape_seo_data page)
            (ai_for ai cfg (scrape_seo_data page)
              (flatSchemaOf (scrape_seo_data page)))).1)) := by
  have hres : results = sortRecs (rows.filterMap (processRow fetch ai cfg uk tk)) := by
    cases rows with
    | nil => simp [detect_csv_columns] at hdet
    | cons r0 rest =>
      rw [run_audit] at hrun
      simp only [List.isEmpty_cons, if_false, Bool.false_eq_true, hdet] at hrun
      split at hrun
      · cases hrun
      · cases hrun
        rfl
  refine ⟨hres, ?_, ?_, ?_, ?_⟩
  · rw [hres]; exact sortRecs_sorted _
  · rw [hres]; exact sortRecs_perm _
  · intro s; rw [hres]; exact sortRecs_filter_score s _
  · intro row r hp
    rw [processRow.eq_def] at hp
    dsimp only at hp
    by_cases hblank : pyStrip (pyGet row uk) = ""
    · rw [if_pos hblank] at hp
      exact Option.noConfusion hp
    · rw [if_neg hblank] at hp
      split at hp
      · rename_i e heq
        cases hp
        exact Or.inl ⟨e, heq, rfl, rfl, rfl⟩
      · rename_i page heq
        cases hp
        exact Or.inr ⟨page, heq, rfl, rfl, rfl⟩

/-- A concrete three-row batch whose second row's fetch times out
(everything else succeeds), for the C5 witness. -/
def fetchC5 : String → Except String HtmlPage := fun u =>
  if u = "https://example.com/2" then Except.error "timed out"
  else Except.ok ⟨some "A Reasonable Title", some "Heading", none, [], none,
    "Some body text for the page"⟩

/-- AI collaborator of the C5 witness (AI disabled, never called). -/
def aiC5 : String → String → String → List JVal → AiResult := fun _ _ _ _ => emptyAi

/-- Configuration of the C5 witness (AI off, no staging override). -/
def cfgC5 : AuditConfig := ⟨false, false, ""⟩

/-- Rows of the C5 witness. -/
def rowsC5 : List Row :=
  [[("Page Title", "Alpha"), ("URL", "example.com/1")],
    [("Page Title", "Beta"), ("URL", "example.com/2")],
    [("Page Title", "Gamma"), ("URL", "example.com/3")]]

/-- C5 witness: the three-row batch at concrete inputs — hypotheses
discharged by computation.  Before the sort the batch yields three
records in row order (row 2 an error record with score 0 and the timeout
message, rows 1 and 3 fully scored); the exposed sequence is the stable
ascending sort. -/
theorem audit_error_isolation_and_sort_witness :
    List.Pairwise (fun a b : AuditRecord => a.score ≤ b.score)
        (sortRecs (rowsC5.filterMap (processRow fetchC5 aiC5 cfgC5 "URL" (some "Page Title")))) ∧
      (sortRecs (rowsC5.filterMap
          (processRow fetchC5 aiC5 cfgC5 "URL" (some "Page Title")))).Perm
        (rowsC5.filterMap (processRow fetchC5 aiC5 cfgC5 "URL" (some "Page Title"))) ∧
      (rowsC5.filterMap (processRow fetchC5 aiC5 cfgC5 "URL" (some "Page Title"))).map
          (fun r => (r.pageTitle, r.score, r.error)) =
        [("Alpha", 100, none), ("Beta", 0, some "timed out"), ("Gamma", 100, none)] ∧
      (sortRecs (rowsC5.filterMap (processRow fetchC5 aiC5 cfgC5 "URL" (some "Page Title")))).map
          (fun r => (r.pageTitle, r.score, r.error)) =
        [("Beta", 0, some "timed out"), ("Alpha", 100, none), ("Gamma", 100, none)] :=
  ⟨(audit_error_isolation_and_sort fetchC5 aiC5 cfgC5 rowsC5 "URL" (some "Page Title")
      ["Page Title", "URL"] _ rfl rfl).2.1,
    (audit_error_isolation_and_sort fetchC5 aiC5 cfgC5 rowsC5 "URL" (some "Page Title")
      ["Page Title", "URL"] _ rfl rfl).2.2.1,
    by decide, by decide⟩

/-! ## Column-detection claim (C9) -/

/-- C9: the candidate lists and first-match resolution of
`detect_csv_columns` on the three specified header sets, and the fatal
batch abort (before any fetch) when no URL column resolves among two or
more headers. -/
theorem detect_columns_cases :
    detect_csv_columns [[("Page Title", "A"), ("URL", "example.com/a")]] =
        (some "URL", some "Page Title", ["Page Title", "URL"]) ∧
      detect_csv_columns [[("website", "example.com")]] =
        (some "website", none, ["website"]) ∧
      detect_csv_columns [[("Name", "n"), ("Notes", "m")]] =
        (none, some "Name", ["Name", "Notes"]) ∧
      url_candidates = ["url", "page url", "page_url", "loc", "link", "address"] ∧
      title_candidates = ["page title", "title", "page", "name"] ∧
      (∀ fetch ai cfg, run_audit fetch ai cfg [[("Name", "n"), ("Notes", "m")]] =
        AuditOutcome.fatalNoUrlColumn ["Name", "Notes"]) :=
  ⟨by decide, by decide, by decide, rfl, rfl, fun _ _ _ => rfl⟩

/-- C6 witness: bounds and monotonicity at concrete inputs (the second
snapshot turns the missing-H1 trigger on). -/
theorem score_in_range_and_monotone_witness :
    0 ≤ (calculate_score ⟨"A Reasonable Title", "Heading", "desc", [], true, "body", 0⟩
        emptyAi).1 ∧
      (calculate_score ⟨"A Reasonable Title", "Heading", "desc", [], true, "body", 0⟩
        emptyAi).1 ≤ 100 ∧
      (calculate_score ⟨"A Reasonable Title", "MISSING", "desc", [], true, "body", 0⟩
          emptyAi).1 ≤
        (calculate_score ⟨"A Reasonable Title", "Heading", "desc", [], true, "body", 0⟩
          emptyAi).1 :=
  score_in_range_and_monotone
    ⟨"A Reasonable Title", "Heading", "desc", [], true, "body", 0⟩
    ⟨"A Reasonable Title", "MISSING", "desc", [], true, "body", 0⟩
    emptyAi emptyAi
    (by decide) (by decide) (by decide) (by decide) (by decide) (by decide) (by decide)

end SeoApp
